import Mathlib

/-!
Verification development for the Yamanote hybrid position estimation engine
(`backend/train_position.py`).

Modelling conventions:
* Python floats are modelled by `ℚ`.  The code's arithmetic on coordinates,
  projection parameters and blend weights is exact field arithmetic, which `ℚ`
  reproduces; float rounding is out of scope.
* `haversine_distance` computes with `sin`/`cos`/`atan2` and `_euclidean_distance`
  with a square root — transcendental operations with no rational counterpart.
  Both are abstracted as function parameters (`hav`, resp. `sq`) threaded through
  the definitions; every claim proved here holds for an arbitrary such function,
  and witnesses instantiate them with concrete computable functions.
* Python `dict` lookups become `String → Option _` functions, Python `None`
  becomes `Option.none`, a Python `try/except` boundary becomes an
  `Except`-valued function parameter.
* Python truthiness on strings (`if not station_id`, `a or b`) is modelled
  explicitly: `none` and the empty string are falsy.
-/

abbrev Pt := ℚ × ℚ

/-! ### Generic first-minimum selection

Both `estimate_segment_progress_extended` and `find_train_on_segments` keep a
running best candidate, replacing it only on a strictly smaller distance
(`if dist < min_dist:` resp. `result['distance_m'] < best_distance`), starting
from `float('inf')`.  `pickStep`/`pickBest` capture that update; the lemmas
show the fold returns the earliest entry attaining the minimal key. -/

def pickStep {α : Type} (key : α → ℚ) (best : Option α) (a : α) : Option α :=
  match best with
  | none => some a
  | some b => if key a < key b then some a else some b

def pickBest {α : Type} (key : α → ℚ) (l : List α) : Option α :=
  l.foldl (pickStep key) none

theorem pickBest_go {α : Type} (key : α → ℚ) (l : List α) :
    ∀ b : α, ∃ w, l.foldl (pickStep key) (some b) = some w ∧
      ((w = b ∧ ∀ a ∈ l, key b ≤ key a) ∨
       (∃ l1 l2, l = l1 ++ w :: l2 ∧ key w < key b ∧
         (∀ a ∈ l1, key w < key a) ∧ (∀ a ∈ l2, key w ≤ key a))) := by
  induction l with
  | nil => intro b; exact ⟨b, rfl, Or.inl ⟨rfl, by simp⟩⟩
  | cons x l ih =>
    intro b
    by_cases hx : key x < key b
    · obtain ⟨w, hw, hcase⟩ := ih x
      refine ⟨w, ?_, ?_⟩
      · simpa [pickStep, hx] using hw
      · rcases hcase with ⟨rfl, hall⟩ | ⟨l1, l2, hdec, hlt, h1, h2⟩
        · exact Or.inr ⟨[], l, by simp, hx, by simp, hall⟩
        · refine Or.inr ⟨x :: l1, l2, by simp [hdec], lt_trans hlt hx, ?_, h2⟩
          intro a ha
          rcases List.mem_cons.1 ha with rfl | ha
          · exact hlt
          · exact h1 a ha
    · obtain ⟨w, hw, hcase⟩ := ih b
      refine ⟨w, ?_, ?_⟩
      · simpa [pickStep, hx] using hw
      · rcases hcase with ⟨rfl, hall⟩ | ⟨l1, l2, hdec, hlt, h1, h2⟩
        · refine Or.inl ⟨rfl, ?_⟩
          intro a ha
          rcases List.mem_cons.1 ha with rfl | ha
          · exact le_of_not_lt hx
          · exact hall a ha
        · refine Or.inr ⟨x :: l1, l2, by simp [hdec], hlt, ?_, h2⟩
          intro a ha
          rcases List.mem_cons.1 ha with rfl | ha
          · exact lt_of_lt_of_le hlt (le_of_not_lt hx)
          · exact h1 a ha

theorem pickBest_eq_none_iff {α : Type} (key : α → ℚ) (l : List α) :
    pickBest key l = none ↔ l = [] := by
  cases l with
  | nil => simp [pickBest]
  | cons x l =>
    obtain ⟨w, hw, -⟩ := pickBest_go key l x
    simp only [pickBest, List.foldl_cons]
    constructor
    · intro h
      rw [show pickStep key none x = some x from rfl, hw] at h
      exact absurd h (by simp)
    · intro h; exact absurd h (by simp)

theorem pickBest_decomp {α : Type} (key : α → ℚ) (l : List α) (w : α)
    (h : pickBest key l = some w) :
    ∃ l1 l2, l = l1 ++ w :: l2 ∧
      (∀ a ∈ l1, key w < key a) ∧ (∀ a ∈ l2, key w ≤ key a) := by
  cases l with
  | nil => simp [pickBest] at h
  | cons x l =>
    obtain ⟨w', hw', hcase⟩ := pickBest_go key l x
    rw [pickBest, List.foldl_cons, show pickStep key none x = some x from rfl,
      hw'] at h
    obtain rfl : w' = w := by injection h
    rcases hcase with ⟨rfl, hall⟩ | ⟨l1, l2, hdec, hlt, h1, h2⟩
    · exact ⟨[], l, by simp, by simp, hall⟩
    · refine ⟨x :: l1, l2, by simp [hdec], ?_, h2⟩
      intro a ha
      rcases List.mem_cons.1 ha with rfl | ha
      · exact hlt
      · exact h1 a ha

theorem pickBest_mem {α : Type} (key : α → ℚ) (l : List α) (w : α)
    (h : pickBest key l = some w) : w ∈ l := by
  obtain ⟨l1, l2, rfl, -, -⟩ := pickBest_decomp key l w h
  simp

theorem pickBest_le {α : Type} (key : α → ℚ) (l : List α) (w : α)
    (h : pickBest key l = some w) : ∀ a ∈ l, key w ≤ key a := by
  obtain ⟨l1, l2, rfl, h1, h2⟩ := pickBest_decomp key l w h
  intro a ha
  rcases List.mem_append.1 ha with ha | ha
  · exact le_of_lt (h1 a ha)
  · rcases List.mem_cons.1 ha with rfl | ha
    · exact le_refl _
    · exact h2 a ha

/-- One loop iteration that first computes an optional per-item outcome and
treats `none` as `continue`, otherwise applies the pick step. -/
def pickFilterStep {α β : Type} (key : α → ℚ) (g : β → Option α)
    (best : Option α) (x : β) : Option α :=
  match g x with
  | none => best
  | some a => pickStep key best a

/-- Folding the pick step over per-item optional outcomes (a `continue` on
`none`) equals folding the pick step over the `filterMap`ped successes. -/
theorem foldl_pickfilter {α β : Type} (key : α → ℚ) (g : β → Option α) :
    ∀ (l : List β) (b : Option α),
      l.foldl (pickFilterStep key g) b
      = (l.filterMap g).foldl (pickStep key) b := by
  intro l
  induction l with
  | nil => intro b; simp
  | cons x l ih =>
    intro b
    cases hx : g x with
    | none => simp [pickFilterStep, List.filterMap_cons, hx, ih]
    | some a => simp [pickFilterStep, List.filterMap_cons, hx, ih]

/-- Minimum of a rational list in the style of the source loop (`0` on the
empty list, which never occurs at use sites). -/
def listMin : List ℚ → ℚ
  | [] => 0
  | a :: l => l.foldl min a

theorem listMin_go (l : List ℚ) :
    ∀ a : ℚ, l.foldl min a ≤ a ∧ (∀ x ∈ l, l.foldl min a ≤ x) := by
  induction l with
  | nil => intro a; simp
  | cons y l ih =>
    intro a
    obtain ⟨h1, h2⟩ := ih (min a y)
    refine ⟨le_trans (by simpa using h1) (min_le_left a y), ?_⟩
    intro x hx
    rcases List.mem_cons.1 hx with rfl | hx
    · exact le_trans (by simpa using h1) (min_le_right a x)
    · simpa using h2 x hx

theorem listMin_le (l : List ℚ) (x : ℚ) (hx : x ∈ l) : listMin l ≤ x := by
  cases l with
  | nil => simp at hx
  | cons a l =>
    rcases List.mem_cons.1 hx with rfl | hx
    · exact (listMin_go l x).1
    · exact (listMin_go l a).2 x hx

theorem listMin_mem (l : List ℚ) (hl : l ≠ []) : listMin l ∈ l := by
  cases l with
  | nil => exact absurd rfl hl
  | cons a l =>
    clear hl
    show l.foldl min a ∈ a :: l
    induction l generalizing a with
    | nil => simp
    | cons y l ih =>
      have h := ih (min a y)
      simp only [List.foldl_cons]
      rcases List.mem_cons.1 h with h | h
      · rw [h]
        rcases le_total a y with hy | hy
        · rw [min_eq_left hy]; simp
        · rw [min_eq_right hy]; simp
      · simp [List.mem_cons.2 (Or.inr h)]

/-- The earliest strict minimum found by `pickBest` attains `listMin` of the keys. -/
theorem pickBest_key_eq_listMin {α : Type} (key : α → ℚ) (l : List α) (w : α)
    (h : pickBest key l = some w) : key w = listMin (l.map key) := by
  have hmem : key w ∈ l.map key := List.mem_map_of_mem key (pickBest_mem key l w h)
  have hle : ∀ a ∈ l, key w ≤ key a := pickBest_le key l w h
  have h1 : listMin (l.map key) ≤ key w := listMin_le _ _ hmem
  have h2 : key w ≤ listMin (l.map key) := by
    have hne : l.map key ≠ [] := by
      intro hc
      rw [hc] at hmem
      simp at hmem
    obtain ⟨a, ha, hak⟩ := List.mem_map.1 (listMin_mem (l.map key) hne)
    rw [← hak]
    exact hle a ha
  exact le_antisymm h2 h1

/-! ### Station topology (`YAMANOTE_STATION_ORDER` / `YAMANOTE_STATION_INDEX`) -/

def YAMANOTE_STATION_ORDER : List String := [
  "JR-East.Yamanote.Osaki",           -- 0
  "JR-East.Yamanote.Gotanda",         -- 1
  "JR-East.Yamanote.Meguro",          -- 2
  "JR-East.Yamanote.Ebisu",           -- 3
  "JR-East.Yamanote.Shibuya",         -- 4
  "JR-East.Yamanote.Harajuku",        -- 5
  "JR-East.Yamanote.Yoyogi",          -- 6
  "JR-East.Yamanote.Shinjuku",        -- 7
  "JR-East.Yamanote.ShinOkubo",       -- 8
  "JR-East.Yamanote.Takadanobaba",    -- 9
  "JR-East.Yamanote.Mejiro",          -- 10
  "JR-East.Yamanote.Ikebukuro",       -- 11
  "JR-East.Yamanote.Otsuka",          -- 12
  "JR-East.Yamanote.Sugamo",          -- 13
  "JR-East.Yamanote.Komagome",        -- 14
  "JR-East.Yamanote.Tabata",          -- 15
  "JR-East.Yamanote.NishiNippori",    -- 16
  "JR-East.Yamanote.Nippori",         -- 17
  "JR-East.Yamanote.Uguisudani",      -- 18
  "JR-East.Yamanote.Ueno",            -- 19
  "JR-East.Yamanote.Okachimachi",     -- 20
  "JR-East.Yamanote.Akihabara",       -- 21
  "JR-East.Yamanote.Kanda",           -- 22
  "JR-East.Yamanote.Tokyo",           -- 23
  "JR-East.Yamanote.Yurakucho",       -- 24
  "JR-East.Yamanote.Shimbashi",       -- 25
  "JR-East.Yamanote.Hamamatsucho",    -- 26
  "JR-East.Yamanote.Tamachi",         -- 27
  "JR-East.Yamanote.TakanawaGateway", -- 28
  "JR-East.Yamanote.Shinagawa"        -- 29
]

/-- Python builds a dict by enumerating `YAMANOTE_STATION_ORDER`; the entries are
pairwise distinct (proved below), so lookup is the first index of the id. -/
def YAMANOTE_STATION_INDEX (s : String) : Option Nat :=
  YAMANOTE_STATION_ORDER.indexOf? s

def NUM_YAMANOTE_STATIONS : Nat := YAMANOTE_STATION_ORDER.length

/-- `get_adjacent_segments` from `train_position.py` (lines 612-664): the nominal
pair plus direction-aware previous and next segments; Python `%` on a possibly
negative left operand matches `Int.emod` for a positive modulus. -/
def get_adjacent_segments (from_station_id to_station_id direction : String) :
    List (String × String) :=
  match YAMANOTE_STATION_INDEX from_station_id,
        YAMANOTE_STATION_INDEX to_station_id with
  | some from_idx, some to_idx =>
    if direction = "OuterLoop" then
      let prev_from_idx := (((from_idx : Int) - 1) % (NUM_YAMANOTE_STATIONS : Int)).toNat
      let prev_from := YAMANOTE_STATION_ORDER.getD prev_from_idx ""
      let next_to_idx := (((to_idx : Int) + 1) % (NUM_YAMANOTE_STATIONS : Int)).toNat
      let next_to := YAMANOTE_STATION_ORDER.getD next_to_idx ""
      [(from_station_id, to_station_id), (prev_from, from_station_id),
        (to_station_id, next_to)]
    else
      let prev_from_idx := (((from_idx : Int) + 1) % (NUM_YAMANOTE_STATIONS : Int)).toNat
      let prev_from := YAMANOTE_STATION_ORDER.getD prev_from_idx ""
      let next_to_idx := (((to_idx : Int) - 1) % (NUM_YAMANOTE_STATIONS : Int)).toNat
      let next_to := YAMANOTE_STATION_ORDER.getD next_to_idx ""
      [(from_station_id, to_station_id), (prev_from, from_station_id),
        (to_station_id, next_to)]
  | _, _ => [(from_station_id, to_station_id)]

/-! ### C1: lemmas about the station index -/

theorem yamanote_station_order_nodup : YAMANOTE_STATION_ORDER.Nodup := by decide

theorem yamanote_station_order_length : YAMANOTE_STATION_ORDER.length = 30 := rfl

theorem yamanote_index_lt (s : String) (i : Nat)
    (h : YAMANOTE_STATION_INDEX s = some i) : i < 30 := by
  rw [YAMANOTE_STATION_INDEX, List.indexOf?, List.findIdx?_eq_some_iff_getElem] at h
  obtain ⟨hlt, -, -⟩ := h
  simpa [yamanote_station_order_length] using hlt

theorem yamanote_index_getD (k : Nat) (hk : k < 30) :
    YAMANOTE_STATION_INDEX (YAMANOTE_STATION_ORDER.getD k "") = some k := by
  have hk' : k < YAMANOTE_STATION_ORDER.length := by
    simpa [yamanote_station_order_length] using hk
  have hget : YAMANOTE_STATION_ORDER.getD k "" = YAMANOTE_STATION_ORDER[k] :=
    List.getD_eq_getElem _ _ hk'
  rw [YAMANOTE_STATION_INDEX, List.indexOf?, List.findIdx?_eq_some_iff_getElem]
  refine ⟨hk', by rw [hget]; simp, ?_⟩
  intro j hji
  have hj : j < YAMANOTE_STATION_ORDER.length := Nat.lt_trans hji hk'
  have hne : YAMANOTE_STATION_ORDER[j] ≠ YAMANOTE_STATION_ORDER[k] := by
    intro hc
    exact absurd ((List.Nodup.getElem_inj_iff yamanote_station_order_nodup).1 hc)
      (Nat.ne_of_lt hji)
  rw [hget]
  simp [hne]

/-- C1: if either station id is absent from the 30-station order table,
`get_adjacent_segments` returns exactly the single pair `(from, to)`; otherwise
exactly the three pairs, in order: nominal `(from, to)`, previous `(prev, from)`
with `prev` one ordinal step backward from `from` in the direction's sense, and
next `(to, next)` with `next` one ordinal step forward from `to`
(OuterLoop: backward is `−1 mod 30` and forward `+1 mod 30`, InnerLoop the
opposite; in `ℕ` the step `fi − 1 mod 30` is written `(fi + 29) % 30`). -/
theorem get_adjacent_segments_spec (f t d : String)
    (hd : d = "OuterLoop" ∨ d = "InnerLoop") :
    ((YAMANOTE_STATION_INDEX f = none ∨ YAMANOTE_STATION_INDEX t = none) →
      get_adjacent_segments f t d = [(f, t)]) ∧
    (∀ fi ti, YAMANOTE_STATION_INDEX f = some fi →
      YAMANOTE_STATION_INDEX t = some ti →
      get_adjacent_segments f t d =
        [(f, t),
         (YAMANOTE_STATION_ORDER.getD
            ((if d = "OuterLoop" then fi + 29 else fi + 1) % 30) "", f),
         (t, YAMANOTE_STATION_ORDER.getD
            ((if d = "OuterLoop" then ti + 1 else ti + 29) % 30) "")] ∧
      YAMANOTE_STATION_INDEX
          (YAMANOTE_STATION_ORDER.getD
            ((if d = "OuterLoop" then fi + 29 else fi + 1) % 30) "")
        = some ((if d = "OuterLoop" then fi + 29 else fi + 1) % 30) ∧
      YAMANOTE_STATION_INDEX
          (YAMANOTE_STATION_ORDER.getD
            ((if d = "OuterLoop" then ti + 1 else ti + 29) % 30) "")
        = some ((if d = "OuterLoop" then ti + 1 else ti + 29) % 30)) := by
  constructor
  · intro h
    cases h1 : YAMANOTE_STATION_INDEX f with
    | none => simp [get_adjacent_segments, h1]
    | some fi =>
      cases h2 : YAMANOTE_STATION_INDEX t with
      | none => simp [get_adjacent_segments, h1, h2]
      | some ti =>
        rw [h1, h2] at h
        rcases h with h | h <;> exact absurd h (by simp)
  · intro fi ti hf ht
    have hfi : fi < 30 := yamanote_index_lt f fi hf
    have hti : ti < 30 := yamanote_index_lt t ti ht
    have hN : NUM_YAMANOTE_STATIONS = 30 := rfl
    rcases hd with rfl | rfl
    · have e1 : (((fi : Int) - 1) % (30 : Int)).toNat = (fi + 29) % 30 := by
        omega
      have e2 : (((ti : Int) + 1) % (30 : Int)).toNat = (ti + 1) % 30 := by
        omega
      refine ⟨?_, ?_, ?_⟩
      · simp [get_adjacent_segments, hf, ht, hN]
        exact ⟨by rw [e1], by rw [e2]⟩
      · simp only [if_pos rfl]
        exact yamanote_index_getD _ (Nat.mod_lt _ (by norm_num))
      · simp only [if_pos rfl]
        exact yamanote_index_getD _ (Nat.mod_lt _ (by norm_num))
    · have hne : ("InnerLoop" : String) ≠ "OuterLoop" := by decide
      have e1 : (((fi : Int) + 1) % (30 : Int)).toNat = (fi + 1) % 30 := by
        omega
      have e2 : (((ti : Int) - 1) % (30 : Int)).toNat = (ti + 29) % 30 := by
        omega
      refine ⟨?_, ?_, ?_⟩
      · simp [get_adjacent_segments, hf, ht, hN, hne]
        exact ⟨by rw [e1], by rw [e2]⟩
      · simp only [if_neg hne]
        exact yamanote_index_getD _ (Nat.mod_lt _ (by norm_num))
      · simp only [if_neg hne]
        exact yamanote_index_getD _ (Nat.mod_lt _ (by norm_num))

/-- Witness for C1 at the concrete Outer-loop pair Shibuya (ordinal 4) →
Harajuku (ordinal 5): previous segment Ebisu (3) → Shibuya, next segment
Harajuku → Yoyogi (6). -/
theorem get_adjacent_segments_spec_witness :
    get_adjacent_segments "JR-East.Yamanote.Shibuya" "JR-East.Yamanote.Harajuku"
        "OuterLoop" =
      [("JR-East.Yamanote.Shibuya", "JR-East.Yamanote.Harajuku"),
       ("JR-East.Yamanote.Ebisu", "JR-East.Yamanote.Shibuya"),
       ("JR-East.Yamanote.Harajuku", "JR-East.Yamanote.Yoyogi")] := by
  have h := (get_adjacent_segments_spec "JR-East.Yamanote.Shibuya"
    "JR-East.Yamanote.Harajuku" "OuterLoop" (Or.inl rfl)).2 4 5
    (by decide) (by decide)
  rw [h.1]
  decide

/-! ### Data cache and geometry resolvers -/

/-- The slice of `DataCache` consumed by `train_position.py`: station
coordinates `(lon, lat)`, the station-to-track-vertex index map, and the loop
polyline.  Python dicts become `String → Option _` lookups. -/
structure DataCache where
  station_positions : String → Option Pt
  station_track_indices : String → Option Nat
  track_points : List Pt

/-- Python truthiness of `station_id or fallback` on optional strings:
`None` and the empty string are falsy. -/
def pyOr (a : Option String) (b : String) : String :=
  match a with
  | none => b
  | some s => if s = "" then b else s

/-- `_get_station_coord` (lines 164-183): `if not station_id: return None`,
then a dict lookup that yields `None` when absent. -/
def _get_station_coord (station_id : Option String) (cache : DataCache) :
    Option Pt :=
  match station_id with
  | none => none
  | some s => if s = "" then none else cache.station_positions s

/-- `_get_path_points` (lines 186-210).  Python slices translate as:
`pts[a:b]` = `(pts.drop a).take (b - a)`, `pts[a:]` = `pts.drop a`,
`pts[:b]` = `pts.take b`, `pts[a::-1]` = `(pts.take (a+1)).reverse`,
`pts[a:b-1:-1]` (`b ≥ 1`) = `((pts.drop b).take (a+1-b)).reverse`,
`pts[:b-1:-1]` (`b ≥ 1`) = `(pts.drop b).reverse`, `pts[::-1]` = `pts.reverse`. -/
def _get_path_points (start_idx end_idx : Nat) (direction : String)
    (track_points : List Pt) : List Pt :=
  if direction = "OuterLoop" then
    if start_idx ≤ end_idx then
      (track_points.drop start_idx).take (end_idx + 1 - start_idx)
    else
      track_points.drop start_idx ++ track_points.take (end_idx + 1)
  else
    if start_idx ≥ end_idx then
      if end_idx = 0 then
        (track_points.take (start_idx + 1)).reverse
      else
        ((track_points.drop end_idx).take (start_idx + 1 - end_idx)).reverse
    else
      let p1 := (track_points.take (start_idx + 1)).reverse
      let p2 := if end_idx > 0 then (track_points.drop end_idx).reverse
                else track_points.reverse
      p1 ++ p2

/-- `get_segment_coords` (lines 515-548), same slice dictionary as above; the
source re-wraps each coordinate pair as a 2-element list, which we keep as the
pair itself. -/
def get_segment_coords (from_station_id to_station_id : String)
    (direction : String) (cache : DataCache) : Option (List Pt) :=
  match cache.station_track_indices from_station_id,
        cache.station_track_indices to_station_id with
  | some from_idx, some to_idx =>
    if cache.track_points = [] then none
    else
      some (if direction = "OuterLoop" then
        if from_idx ≤ to_idx then
          (cache.track_points.drop from_idx).take (to_idx + 1 - from_idx)
        else
          cache.track_points.drop from_idx ++ cache.track_points.take (to_idx + 1)
      else
        if from_idx ≥ to_idx then
          ((cache.track_points.drop to_idx).take (from_idx + 1 - to_idx)).reverse
        else
          (cache.track_points.drop to_idx ++
            cache.track_points.take (from_idx + 1)).reverse)
  | _, _ => none

/-- C10: the two independent segment-geometry resolvers agree — for a
non-empty track-point list, vertex indices valid for it and any direction,
`get_segment_coords` (neighbor search) returns exactly the ordered coordinate
sequence `_get_path_points` (position synthesis) produces for the same inputs. -/
theorem get_segment_coords_eq_path_points (f t d : String) (cache : DataCache)
    (i j : Nat) (hf : cache.station_track_indices f = some i)
    (ht : cache.station_track_indices t = some j)
    (hne : cache.track_points ≠ [])
    (hi : i < cache.track_points.length) (hj : j < cache.track_points.length) :
    get_segment_coords f t d cache =
      some (_get_path_points i j d cache.track_points) := by
  simp only [get_segment_coords, hf, ht, if_neg hne, _get_path_points]
  by_cases hd : d = "OuterLoop"
  · simp [hd]
  · simp only [if_neg hd]
    by_cases hij : i ≥ j
    · by_cases hj0 : j = 0
      · subst hj0
        simp [hij]
      · simp [hij, hj0]
    · have hj0 : j > 0 := by omega
      simp [hij, hj0, List.reverse_append]

/-- Witness cache for C10: three track vertices, station A at vertex 2 and
station B at vertex 0. -/
def trackCacheExample : DataCache where
  station_positions := fun _ => none
  station_track_indices := fun s =>
    if s = "A" then some 2 else if s = "B" then some 0 else none
  track_points := [(0, 0), (1, 1), (2, 2)]

/-- Witness for C10 at a concrete inner-loop slice across vertex 0. -/
theorem get_segment_coords_eq_path_points_witness :
    get_segment_coords "A" "B" "InnerLoop" trackCacheExample =
      some (_get_path_points 2 0 "InnerLoop" [(0, 0), (1, 1), (2, 2)]) :=
  get_segment_coords_eq_path_points "A" "B" "InnerLoop" trackCacheExample 2 0
    rfl rfl (by decide) (by decide) (by decide)

/-! ### Projection onto a polyline (`point_to_segment_distance`,
`estimate_segment_progress_extended`)

`haversine_distance(lat1, lon1, lat2, lon2)` is transcendental; it enters this
development as the abstract parameter `hav` with the same argument order. -/

/-- `point_to_segment_distance` (lines 487-512): returns
`(distance_m, nearest_lon, nearest_lat, t)` with the projection parameter `t`
clamped to `[0,1]`; on a degenerate segment it measures to the endpoint with
`t = 0`. -/
def point_to_segment_distance (hav : ℚ → ℚ → ℚ → ℚ → ℚ)
    (px py ax ay bx bY : ℚ) : ℚ × ℚ × ℚ × ℚ :=
  let dx := bx - ax
  let dy := bY - ay
  if dx = 0 ∧ dy = 0 then
    (hav py px ay ax, ax, ay, 0)
  else
    let t := ((px - ax) * dx + (py - ay) * dy) / (dx * dx + dy * dy)
    let t := max 0 (min 1 t)
    let nearest_lon := ax + t * dx
    let nearest_lat := ay + t * dy
    (hav py px nearest_lat nearest_lon, nearest_lon, nearest_lat, t)

/-- The running cumulative haversine lengths (`cumulative_distances`): one entry
per coordinate, starting at `0`. -/
def cumGo (hav : ℚ → ℚ → ℚ → ℚ → ℚ) : ℚ → List (Pt × Pt) → List ℚ
  | _, [] => []
  | acc, (p, c) :: rest =>
    let acc' := acc + hav p.2 p.1 c.2 c.1
    acc' :: cumGo hav acc' rest

def cumulativeDistances (hav : ℚ → ℚ → ℚ → ℚ → ℚ) (coords : List Pt) :
    List ℚ :=
  0 :: cumGo hav 0 (coords.zip coords.tail)

/-- One record per consecutive sub-segment of the loop body of
`estimate_segment_progress_extended`: its perpendicular distance, index,
clamped `t` and nearest point. -/
structure SegEntry where
  dist : ℚ
  idx : Nat
  tParam : ℚ
  nlon : ℚ
  nlat : ℚ
deriving DecidableEq

def projEntries (hav : ℚ → ℚ → ℚ → ℚ → ℚ) (coords : List Pt)
    (target_lat target_lon : ℚ) : List SegEntry :=
  (coords.zip coords.tail).enum.map (fun p =>
    let r := point_to_segment_distance hav target_lon target_lat
      p.2.1.1 p.2.1.2 p.2.2.1 p.2.2.2
    ⟨r.1, p.1, r.2.2.2, r.2.1, r.2.2.1⟩)

structure ExtResult where
  progress : ℚ
  distance_m : ℚ
  lon : ℚ
  lat : ℚ
deriving DecidableEq

/-- `estimate_segment_progress_extended` (lines 671-740).  The source loop
starts from `min_dist = inf` and replaces the running best only on a strictly
smaller distance, which is exactly `pickBest` over the per-sub-segment entries
(the `none` accumulator plays `inf`; the loop body always runs at least once
when the length guard passed, so the `pickBest = none` branch is unreachable
and mirrors `inf > max_distance_m → None`). -/
def estimate_segment_progress_extended (hav : ℚ → ℚ → ℚ → ℚ → ℚ)
    (segment_coords : List Pt) (target_lat target_lon : ℚ)
    (max_distance_m : ℚ) : Option ExtResult :=
  if segment_coords.length < 2 then none
  else
    let cum := cumulativeDistances hav segment_coords
    let total_length := cum.getLastD 0
    if total_length < 1 then none
    else
      match pickBest (fun e => e.dist)
          (projEntries hav segment_coords target_lat target_lon) with
      | none => none
      | some e =>
        if e.dist > max_distance_m then none
        else
          let segment_start_dist := cum.getD e.idx 0
          let segment_length := cum.getD (e.idx + 1) 0 - segment_start_dist
          let progress_distance := segment_start_dist + e.tParam * segment_length
          let progress := progress_distance / total_length
          some ⟨max 0 (min 1 progress), e.dist, e.nlon, e.nlat⟩

theorem projEntries_length (hav : ℚ → ℚ → ℚ → ℚ → ℚ) (coords : List Pt)
    (target_lat target_lon : ℚ) :
    (projEntries hav coords target_lat target_lon).length =
      coords.length - 1 := by
  simp only [projEntries, List.length_map, List.enum_length, List.length_zip,
    List.length_tail]
  omega

/-- C2: `estimate_segment_progress_extended` returns `none` exactly when the
coordinate list has fewer than two points, or the accumulated (haversine)
polyline length is below `1.0`, or the minimal clamped-projection distance over
all consecutive sub-segments exceeds `max_distance_m`; otherwise it returns the
progress `(cumulative_length[best] + t·length[best]) / total_length` clamped to
`[0,1]` together with that minimal distance and the nearest coordinate, taken
at the earliest sub-segment attaining the minimal distance. -/
theorem estimate_segment_progress_extended_spec (hav : ℚ → ℚ → ℚ → ℚ → ℚ)
    (coords : List Pt) (target_lat target_lon max_distance_m : ℚ) :
    (coords.length < 2 →
      estimate_segment_progress_extended hav coords target_lat target_lon
        max_distance_m = none) ∧
    (2 ≤ coords.length →
      (estimate_segment_progress_extended hav coords target_lat target_lon
          max_distance_m = none ↔
        (cumulativeDistances hav coords).getLastD 0 < 1 ∨
        max_distance_m <
          listMin ((projEntries hav coords target_lat target_lon).map
            SegEntry.dist))) ∧
    (∀ res, estimate_segment_progress_extended hav coords target_lat target_lon
        max_distance_m = some res →
      2 ≤ coords.length ∧
      1 ≤ (cumulativeDistances hav coords).getLastD 0 ∧
      ∃ l1 e l2,
        projEntries hav coords target_lat target_lon = l1 ++ e :: l2 ∧
        (∀ x ∈ l1, e.dist < x.dist) ∧
        (∀ x ∈ l2, e.dist ≤ x.dist) ∧
        e.dist = listMin ((projEntries hav coords target_lat target_lon).map
          SegEntry.dist) ∧
        e.dist ≤ max_distance_m ∧
        res = ⟨max 0 (min 1 (((cumulativeDistances hav coords).getD e.idx 0 +
            e.tParam * ((cumulativeDistances hav coords).getD (e.idx + 1) 0 -
              (cumulativeDistances hav coords).getD e.idx 0)) /
            (cumulativeDistances hav coords).getLastD 0)),
          e.dist, e.nlon, e.nlat⟩) := by
  refine ⟨?_, ?_, ?_⟩
  · intro h
    simp [estimate_segment_progress_extended, h]
  · intro hlen
    have hlen' : ¬ coords.length < 2 := by omega
    have hentne : projEntries hav coords target_lat target_lon ≠ [] := by
      intro hc
      have hl := projEntries_length hav coords target_lat target_lon
      rw [hc] at hl
      simp at hl
      omega
    obtain ⟨w, hw⟩ : ∃ w, pickBest (fun e => e.dist)
        (projEntries hav coords target_lat target_lon) = some w := by
      cases hp : pickBest (fun e => e.dist)
          (projEntries hav coords target_lat target_lon) with
      | none => exact absurd ((pickBest_eq_none_iff _ _).1 hp) hentne
      | some w => exact ⟨w, rfl⟩
    have hkey : w.dist =
        listMin ((projEntries hav coords target_lat target_lon).map
          SegEntry.dist) := pickBest_key_eq_listMin _ _ _ hw
    simp only [estimate_segment_progress_extended, if_neg hlen', hw]
    by_cases ht : (cumulativeDistances hav coords).getLastD 0 < 1
    · rw [if_pos ht]
      constructor
      · intro _
        exact Or.inl ht
      · intro _
        simp
    · rw [if_neg ht]
      by_cases hgt : w.dist > max_distance_m
      · rw [if_pos hgt]
        constructor
        · intro _
          exact Or.inr (hkey ▸ hgt)
        · intro _
          simp
      · rw [if_neg hgt]
        constructor
        · intro hc
          exact absurd hc (by simp)
        · intro hc
          rcases hc with hc | hc
          · exact absurd hc ht
          · rw [← hkey] at hc
            exact absurd hc hgt
  · intro res hres
    simp only [estimate_segment_progress_extended] at hres
    by_cases hlen : coords.length < 2
    · rw [if_pos hlen] at hres
      exact absurd hres (by simp)
    rw [if_neg hlen] at hres
    by_cases ht : (cumulativeDistances hav coords).getLastD 0 < 1
    · rw [if_pos ht] at hres
      exact absurd hres (by simp)
    rw [if_neg ht] at hres
    cases hp : pickBest (fun e => e.dist)
        (projEntries hav coords target_lat target_lon) with
    | none =>
      simp only [hp] at hres
      exact absurd hres (by simp)
    | some e =>
      simp only [hp] at hres
      by_cases hgt : e.dist > max_distance_m
      · rw [if_pos hgt] at hres
        exact absurd hres (by simp)
      rw [if_neg hgt] at hres
      obtain rfl := Option.some.inj hres
      obtain ⟨l1, l2, hdec, h1, h2⟩ := pickBest_decomp _ _ _ hp
      exact ⟨by omega, le_of_not_lt ht,
        l1, e, l2, hdec, h1, h2, pickBest_key_eq_listMin _ _ _ hp,
        le_of_not_lt hgt, rfl⟩

/-- Sample computable distance function used only to instantiate the abstract
haversine parameter in witnesses (squared Euclidean distance, kept free of
absolute values so that kernel evaluation stays cheap). -/
def havTaxi (lat1 lon1 lat2 lon2 : ℚ) : ℚ :=
  (lat1 - lat2) * (lat1 - lat2) + (lon1 - lon2) * (lon1 - lon2)

/-- Witness for C2 on the concrete two-point polyline `(0,0)–(0,3)` with target
`(lat 1, lon 0)`: total length 3 ≥ 1 and minimal distance 0 ≤ 500, so the
estimator does not reject. -/
theorem estimate_segment_progress_extended_spec_witness :
    estimate_segment_progress_extended havTaxi [(0, 0), (0, 3)] 1 0 500 ≠
      none := by
  intro hc
  have h := ((estimate_segment_progress_extended_spec havTaxi [(0, 0), (0, 3)]
    1 0 500).2.1 (by decide)).1 hc
  rcases h with h | h
  · norm_num [cumulativeDistances, cumGo, havTaxi] at h
  · norm_num [projEntries, point_to_segment_distance, havTaxi, listMin,
      List.enum, List.enumFrom] at h

/-! ### Neighbor search (`find_train_on_segments`) -/

structure FindResult where
  segment : String × String
  progress : ℚ
  distance_m : ℚ
  lon : ℚ
  lat : ℚ
  is_neighbor : Bool
deriving DecidableEq

/-- One iteration of the `find_train_on_segments` loop body before the best
comparison: `continue` when the polyline is unavailable or shorter than two
points (`if not segment_coords or len(segment_coords) < 2`), otherwise run the
extended estimator and build the result record with `is_neighbor = (idx > 0)`. -/
def segCandidate (hav : ℚ → ℚ → ℚ → ℚ → ℚ) (gtfs_lat gtfs_lon : ℚ)
    (direction : String) (cache : DataCache) (max_distance_m : ℚ)
    (p : Nat × String × String) : Option FindResult :=
  match get_segment_coords p.2.1 p.2.2 direction cache with
  | none => none
  | some segment_coords =>
    if segment_coords.length < 2 then none
    else
      (estimate_segment_progress_extended hav segment_coords gtfs_lat gtfs_lon
        max_distance_m).map
        (fun r => ⟨(p.2.1, p.2.2), r.progress, r.distance_m, r.lon, r.lat,
          decide (0 < p.1)⟩)

/-- `find_train_on_segments` (lines 747-808): enumerate the candidate pairs of
`get_adjacent_segments` in order and keep the strictly best (smallest
`distance_m`) successful projection, starting from `best_distance = inf`
(the `none` accumulator). -/
def find_train_on_segments (hav : ℚ → ℚ → ℚ → ℚ → ℚ)
    (gtfs_lat gtfs_lon : ℚ) (from_station_id to_station_id direction : String)
    (cache : DataCache) (max_distance_m : ℚ) : Option FindResult :=
  ((get_adjacent_segments from_station_id to_station_id direction).enum).foldl
    (pickFilterStep (fun x => x.distance_m)
      (segCandidate hav gtfs_lat gtfs_lon direction cache max_distance_m))
    none

theorem find_train_on_segments_eq_pickBest (hav : ℚ → ℚ → ℚ → ℚ → ℚ)
    (gtfs_lat gtfs_lon : ℚ) (from_station_id to_station_id direction : String)
    (cache : DataCache) (max_distance_m : ℚ) :
    find_train_on_segments hav gtfs_lat gtfs_lon from_station_id to_station_id
        direction cache max_distance_m =
      pickBest (fun x => x.distance_m)
        (((get_adjacent_segments from_station_id to_station_id direction).enum).filterMap
          (segCandidate hav gtfs_lat gtfs_lon direction cache max_distance_m)) :=
  foldl_pickfilter _ _ _ none

theorem map_eq_append_cons {α β : Type} (fn : α → β) :
    ∀ (m1 : List β) (l : List α) (b : β) (m2 : List β),
      l.map fn = m1 ++ b :: m2 →
      ∃ l1 x l2, l = l1 ++ x :: l2 ∧ fn x = b ∧ l1.map fn = m1 ∧ l2.map fn = m2 := by
  intro m1
  induction m1 with
  | nil =>
    intro l b m2 h
    cases l with
    | nil => simp at h
    | cons a l' =>
      simp only [List.map_cons, List.nil_append] at h
      obtain ⟨h1, h2⟩ := List.cons.inj h
      exact ⟨[], a, l', by simp, h1, rfl, h2⟩
  | cons c m1' ih =>
    intro l b m2 h
    cases l with
    | nil => simp at h
    | cons a l' =>
      simp only [List.map_cons, List.cons_append] at h
      obtain ⟨h1, h2⟩ := List.cons.inj h
      obtain ⟨l1, x, l2, hdec, hx, hm1, hm2⟩ := ih l' b m2 h2
      exact ⟨a :: l1, x, l2, by simp [hdec], hx, by simp [h1, hm1], hm2⟩

theorem segCandidate_is_neighbor (hav : ℚ → ℚ → ℚ → ℚ → ℚ)
    (gtfs_lat gtfs_lon : ℚ) (direction : String) (cache : DataCache)
    (max_distance_m : ℚ) (p : Nat × String × String) (r : FindResult)
    (h : segCandidate hav gtfs_lat gtfs_lon direction cache max_distance_m p =
      some r) : r.is_neighbor = decide (0 < p.1) := by
  cases hg : get_segment_coords p.2.1 p.2.2 direction cache with
  | none => simp [segCandidate, hg] at h
  | some coords =>
    simp only [segCandidate, hg] at h
    split at h
    · exact absurd h (by simp)
    · obtain ⟨res, -, hr⟩ := Option.map_eq_some'.1 h
      rw [← hr]

/-- C3: `find_train_on_segments` evaluates the candidates of
`get_adjacent_segments` in order, skipping a candidate whose polyline is
unavailable or shorter than two points; it returns `none` exactly when no
candidate yields a successful projection, and otherwise returns the successful
candidate with the smallest `distance_m` (the earlier candidate winning ties),
whose `is_neighbor` flag is set exactly when its candidate index is not 0. -/
theorem find_train_on_segments_spec (hav : ℚ → ℚ → ℚ → ℚ → ℚ)
    (gtfs_lat gtfs_lon : ℚ) (from_station_id to_station_id direction : String)
    (cache : DataCache) (max_distance_m : ℚ) :
    (find_train_on_segments hav gtfs_lat gtfs_lon from_station_id to_station_id
        direction cache max_distance_m = none ↔
      ((get_adjacent_segments from_station_id to_station_id direction).enum).filterMap
        (fun p => (segCandidate hav gtfs_lat gtfs_lon direction cache
          max_distance_m p).map (fun r => (p.1, r))) = []) ∧
    (∀ w, find_train_on_segments hav gtfs_lat gtfs_lon from_station_id
        to_station_id direction cache max_distance_m = some w →
      ∃ l1 i l2,
        ((get_adjacent_segments from_station_id to_station_id direction).enum).filterMap
          (fun p => (segCandidate hav gtfs_lat gtfs_lon direction cache
            max_distance_m p).map (fun r => (p.1, r))) = l1 ++ (i, w) :: l2 ∧
        (∀ q ∈ l1, w.distance_m < q.2.distance_m) ∧
        (∀ q ∈ l2, w.distance_m ≤ q.2.distance_m) ∧
        w.is_neighbor = decide (0 < i)) := by
  have hmap :
      (((get_adjacent_segments from_station_id to_station_id direction).enum).filterMap
        (fun p => (segCandidate hav gtfs_lat gtfs_lon direction cache
          max_distance_m p).map (fun r => (p.1, r)))).map Prod.snd =
      ((get_adjacent_segments from_station_id to_station_id direction).enum).filterMap
        (segCandidate hav gtfs_lat gtfs_lon direction cache max_distance_m) := by
    rw [List.map_filterMap]
    have hfun : (fun p : Nat × String × String =>
        ((segCandidate hav gtfs_lat gtfs_lon direction cache max_distance_m p).map
          (fun r => (p.1, r))).map Prod.snd) =
        segCandidate hav gtfs_lat gtfs_lon direction cache max_distance_m := by
      funext p
      cases segCandidate hav gtfs_lat gtfs_lon direction cache max_distance_m p <;> simp
    rw [hfun]
  have hfind := find_train_on_segments_eq_pickBest hav gtfs_lat gtfs_lon
    from_station_id to_station_id direction cache max_distance_m
  rw [← hmap] at hfind
  constructor
  · rw [hfind, pickBest_eq_none_iff]
    exact List.map_eq_nil_iff
  · intro w hw
    rw [hfind] at hw
    obtain ⟨m1, m2, hdec, h1, h2⟩ := pickBest_decomp _ _ _ hw
    obtain ⟨l1, x, l2, hdec', hx, hm1, hm2⟩ := map_eq_append_cons _ _ _ _ _ hdec
    obtain ⟨i, w'⟩ := x
    have hx' : w' = w := hx
    rw [hx'] at hdec'
    refine ⟨l1, i, l2, hdec', ?_, ?_, ?_⟩
    · intro q hq
      exact h1 q.2 (hm1 ▸ List.mem_map_of_mem Prod.snd hq)
    · intro q hq
      exact h2 q.2 (hm2 ▸ List.mem_map_of_mem Prod.snd hq)
    · have hmem : (i, w) ∈
          ((get_adjacent_segments from_station_id to_station_id direction).enum).filterMap
            (fun p => (segCandidate hav gtfs_lat gtfs_lon direction cache
              max_distance_m p).map (fun r => (p.1, r))) := by
        rw [hdec']
        simp
      obtain ⟨p, -, hp⟩ := List.mem_filterMap.1 hmem
      obtain ⟨r, hr, hpr⟩ := Option.map_eq_some'.1 hp
      obtain ⟨hp1, hp2⟩ := Prod.mk.inj hpr
      rw [← hp1]
      rw [hp2] at hr
      exact segCandidate_is_neighbor hav gtfs_lat gtfs_lon direction cache
        max_distance_m p w hr

/-- Cache with no geometry at all: every candidate is skipped. -/
def emptyCache : DataCache where
  station_positions := fun _ => none
  station_track_indices := fun _ => none
  track_points := []

/-- Witness for C3: with no geometry available every candidate is skipped, and
the search reports overall rejection. -/
theorem find_train_on_segments_spec_witness :
    find_train_on_segments havTaxi 0 0 "A" "B" "X" emptyCache 500 = none :=
  (find_train_on_segments_spec havTaxi 0 0 "A" "B" "X" emptyCache 500).1.mpr
    (by decide)

/-! ### Position synthesis -/

/-- `_euclidean_distance` (lines 213-215): `sqrt` is transcendental and enters
as the abstract parameter `sq` applied to the sum of squares. -/
def _euclidean_distance (sq : ℚ → ℚ) (coord1 coord2 : Pt) : ℚ :=
  sq ((coord1.1 - coord2.1) * (coord1.1 - coord2.1) +
    (coord1.2 - coord2.2) * (coord1.2 - coord2.2))

/-- The index walk of `_get_point_on_path` (lines 246-255): find the first
sub-segment whose cumulative length reaches the target distance. -/
def gopWalk (path : List Pt) (target : ℚ) : List ℚ → ℚ → Nat → Pt
  | [], _, _ => path.getLastD (0, 0)
  | d :: ds, cumulative, i =>
    if cumulative + d ≥ target then
      if d = 0 then path.getD i (0, 0)
      else
        let local_progress := (target - cumulative) / d
        let a := path.getD i (0, 0)
        let b := path.getD (i + 1) (0, 0)
        (a.1 + local_progress * (b.1 - a.1), a.2 + local_progress * (b.2 - a.2))
    else gopWalk path target ds (cumulative + d) (i + 1)

/-- `_get_point_on_path` (lines 218-257). -/
def _get_point_on_path (sq : ℚ → ℚ) (path : List Pt) (progress : ℚ) : Pt :=
  if path = [] then (0, 0)
  else if path.length < 2 then path.headD (0, 0)
  else if progress ≤ 0 then path.headD (0, 0)
  else if progress ≥ 1 then path.getLastD (0, 0)
  else
    let distances := (path.zip path.tail).map
      (fun p => _euclidean_distance sq p.1 p.2)
    let total_distance := distances.foldl (· + ·) 0
    if total_distance = 0 then path.headD (0, 0)
    else gopWalk path (progress * total_distance) distances 0 0

/-- `_interpolate_coords` (lines 260-297): `None` on a missing station id;
straight-line fallback with clamped progress when the track geometry is
unavailable (`not cache.track_points` or either station absent from
`station_track_indices`); otherwise the arc-length walk along the sliced
polyline. -/
def _interpolate_coords (sq : ℚ → ℚ)
    (from_station_id to_station_id : Option String) (progress : ℚ)
    (direction : String) (cache : DataCache) : Option Pt :=
  match from_station_id, to_station_id with
  | some f, some t =>
    if cache.track_points = [] ∨ cache.station_track_indices f = none ∨
        cache.station_track_indices t = none then
      match _get_station_coord (some f) cache, _get_station_coord (some t) cache with
      | some s, some e =>
        let p := max 0 (min 1 progress)
        some (s.1 + (e.1 - s.1) * p, s.2 + (e.2 - s.2) * p)
      | _, _ => none
    else
      let start_idx := (cache.station_track_indices f).getD 0
      let end_idx := (cache.station_track_indices t).getD 0
      some (_get_point_on_path sq
        (_get_path_points start_idx end_idx direction cache.track_points)
        progress)
  | _, _ => none

/-- The train object carried by a section state; only the fields read by
`train_position.py`. -/
structure Train where
  base_id : String
  number : String
  service_type : String
  line_id : String
  direction : String
deriving DecidableEq

/-- Modelled from the spec: `TrainSectionState` is produced by
`train_state.py`, which is not among the provided sources.  Spec §3 defines
the consumed `ScheduleState` as `{train_number, direction, from_station,
to_station, progress ∈ [0,1], is_stopped, stopped_at_station?,
service_time_seconds}`; the fields below keep the names under which
`train_position.py` reads them. -/
structure TrainSectionState where
  train : Train
  is_stopped : Bool
  stopped_at_station_id : Option String
  from_station_id : String
  to_station_id : String
  progress : ℚ
  current_time_sec : Int
  segment_end_sec : Option Int
deriving DecidableEq

/-- The output record (`TrainPosition` dataclass, lines 19-64). -/
structure TrainPosition where
  train_id : String
  base_id : String
  number : String
  service_type : String
  line_id : String
  direction : String
  is_stopped : Bool
  station_id : Option String
  from_station_id : Option String
  to_station_id : Option String
  progress : ℚ
  lon : ℚ
  lat : ℚ
  current_time_sec : Int
  is_scheduled : Bool
  delay_seconds : Int
  departure_time : Option Int
  data_quality : String
  gtfs_stop_sequence : Option Int
  gtfs_status : Option Int
  timetable_lat : Option ℚ
  timetable_lon : Option ℚ
  gtfs_lat : Option ℚ
  gtfs_lon : Option ℚ
deriving DecidableEq

/-- The `train_id` expression shared verbatim by `train_state_to_position` and
`train_state_to_position_with_override`: append the service type unless it is
falsy (empty) or `"Unknown"`. -/
def mkTrainId (train : Train) : String :=
  if train.service_type ≠ "" ∧ train.service_type ≠ "Unknown" then
    train.base_id ++ "." ++ train.service_type
  else train.base_id

/-- `train_state_to_position` (lines 311-382). -/
def train_state_to_position (sq : ℚ → ℚ) (state : TrainSectionState)
    (cache : DataCache) : Option TrainPosition :=
  let train := state.train
  let train_id := mkTrainId train
  if state.is_stopped then
    let station_id := pyOr state.stopped_at_station_id state.from_station_id
    match _get_station_coord (some station_id) cache with
    | none => none
    | some c =>
      some
        { train_id := train_id
          base_id := train.base_id
          number := train.number
          service_type := train.service_type
          line_id := train.line_id
          direction := train.direction
          is_stopped := true
          station_id := some station_id
          from_station_id := none
          to_station_id := none
          progress := 0
          lon := c.1
          lat := c.2
          current_time_sec := state.current_time_sec
          is_scheduled := true
          delay_seconds := 0
          departure_time := state.segment_end_sec
          data_quality := "timetable_only"
          gtfs_stop_sequence := none
          gtfs_status := none
          timetable_lat := none
          timetable_lon := none
          gtfs_lat := none
          gtfs_lon := none }
  else
    match _interpolate_coords sq (some state.from_station_id)
        (some state.to_station_id) state.progress train.direction cache with
    | none => none
    | some c =>
      some
        { train_id := train_id
          base_id := train.base_id
          number := train.number
          service_type := train.service_type
          line_id := train.line_id
          direction := train.direction
          is_stopped := false
          station_id := none
          from_station_id := some state.from_station_id
          to_station_id := some state.to_station_id
          progress := state.progress
          lon := c.1
          lat := c.2
          current_time_sec := state.current_time_sec
          is_scheduled := true
          delay_seconds := 0
          departure_time := none
          data_quality := "timetable_only"
          gtfs_stop_sequence := none
          gtfs_status := none
          timetable_lat := none
          timetable_lon := none
          gtfs_lat := none
          gtfs_lon := none }

/-- `train_state_to_position_with_override` (lines 815-918).  Python falsiness
in `override_from_station if override_from_station else state.from_station_id`
is `pyOr`; `override_progress` is compared against `None` exactly
(`if override_progress is not None`), hence `Option.getD`. -/
def train_state_to_position_with_override (sq : ℚ → ℚ)
    (state : TrainSectionState) (cache : DataCache)
    (override_progress : Option ℚ) (data_quality : String)
    (gtfs_info : Option (Option Int × Option Int))
    (override_from_station override_to_station : Option String)
    (timetable_coords gtfs_coords : Option (ℚ × ℚ)) : Option TrainPosition :=
  let train := state.train
  let train_id := mkTrainId train
  let stop_seq := gtfs_info.bind Prod.fst
  let status := gtfs_info.bind Prod.snd
  if state.is_stopped then
    let station_id := pyOr state.stopped_at_station_id state.from_station_id
    match _get_station_coord (some station_id) cache with
    | none => none
    | some c =>
      some
        { train_id := train_id
          base_id := train.base_id
          number := train.number
          service_type := train.service_type
          line_id := train.line_id
          direction := train.direction
          is_stopped := true
          station_id := some station_id
          from_station_id := none
          to_station_id := none
          progress := 0
          lon := c.1
          lat := c.2
          current_time_sec := state.current_time_sec
          is_scheduled := true
          delay_seconds := 0
          departure_time := state.segment_end_sec
          data_quality := data_quality
          gtfs_stop_sequence := stop_seq
          gtfs_status := status
          timetable_lat := timetable_coords.map Prod.fst
          timetable_lon := timetable_coords.map Prod.snd
          gtfs_lat := gtfs_coords.map Prod.fst
          gtfs_lon := gtfs_coords.map Prod.snd }
  else
    let from_id := pyOr override_from_station state.from_station_id
    let to_id := pyOr override_to_station state.to_station_id
    let progress := override_progress.getD state.progress
    match _interpolate_coords sq (some from_id) (some to_id) progress
        train.direction cache with
    | none => none
    | some c =>
      some
        { train_id := train_id
          base_id := train.base_id
          number := train.number
          service_type := train.service_type
          line_id := train.line_id
          direction := train.direction
          is_stopped := false
          station_id := none
          from_station_id := some from_id
          to_station_id := some to_id
          progress := progress
          lon := c.1
          lat := c.2
          current_time_sec := state.current_time_sec
          is_scheduled := true
          delay_seconds := 0
          departure_time := none
          data_quality := data_quality
          gtfs_stop_sequence := stop_seq
          gtfs_status := status
          timetable_lat := timetable_coords.map Prod.fst
          timetable_lon := timetable_coords.map Prod.snd
          gtfs_lat := gtfs_coords.map Prod.fst
          gtfs_lon := gtfs_coords.map Prod.snd }

/-! ### Blending pipeline -/

/-- The GTFS-RT record (`YamanoteTrainPosition` in `gtfs_rt_vehicle.py`). -/
structure YamanoteTrainPosition where
  trip_id : String
  train_number : String
  direction : String
  latitude : ℚ
  longitude : ℚ
  stop_sequence : Int
  status : Int
  timestamp : ℚ
deriving DecidableEq

/-- Modelled from the spec: `blend_progress` lives in `train_state.py`, which
is not among the provided sources.  Spec §4.5 fixes the policy: staleness at
most the fresh threshold (30 s) yields the realtime progress with quality
`good`; above it but at most the stale threshold (120 s) a linear
interpolation with weight `w = 1 − (staleness − FRESH)/(STALE − FRESH)` and
quality `stale`; beyond the stale threshold the schedule progress with quality
`timetable_only`. -/
def blend_progress (schedule_progress realtime_progress staleness_seconds : ℚ) :
    ℚ × String :=
  if staleness_seconds ≤ 30 then (realtime_progress, "good")
  else if staleness_seconds ≤ 120 then
    let w := 1 - (staleness_seconds - 30) / (120 - 30)
    (w * realtime_progress + (1 - w) * schedule_progress, "stale")
  else (schedule_progress, "timetable_only")

/-- The neighbor search as invoked by `get_blended_train_positions` (line 984,
with `max_distance_m = 500.0`), wrapped in `Except` to model the surrounding
`try`: this instantiation never raises. -/
def searchOk (hav : ℚ → ℚ → ℚ → ℚ → ℚ) (cache : DataCache) :
    ℚ → ℚ → String → String → String → Except Unit (Option FindResult) :=
  fun lat lon f t d =>
    Except.ok (find_train_on_segments hav lat lon f t d cache 500)

/-- One iteration of the `get_blended_train_positions` loop (lines 951-1069)
for a single state: look up the matching report, run the neighbor search for a
moving train (the `try/except` boundary around the search is the
`Except`-valued `searchE` parameter: `error` sets quality `error`, a `none`
search result sets `rejected`, a neighbor hit swaps the segment), blend, build
the comparison coordinates, and convert via the override variant.  Debug
logging and the statistics dictionary of the source are observational only and
not modelled. -/
def blendStep (sq : ℚ → ℚ)
    (searchE : ℚ → ℚ → String → String → String →
      Except Unit (Option FindResult))
    (current_time : ℚ) (cache : DataCache)
    (gtfs_data : String → Option YamanoteTrainPosition)
    (state : TrainSectionState) : Option TrainPosition :=
  let gtfs_position := gtfs_data state.train.number
  let gtfs_info := gtfs_position.map (fun g => ((some g.stop_sequence : Option Int),
    (some g.status : Option Int)))
  let blended : ℚ × String × String × String :=
    if state.is_stopped = false then
      match gtfs_position with
      | some g =>
        match searchE g.latitude g.longitude state.from_station_id
            state.to_station_id state.train.direction with
        | Except.error _ =>
          (state.progress, "error", state.from_station_id, state.to_station_id)
        | Except.ok none =>
          (state.progress, "rejected", state.from_station_id, state.to_station_id)
        | Except.ok (some sr) =>
          let seg := if sr.is_neighbor then sr.segment
                     else (state.from_station_id, state.to_station_id)
          let staleness_sec := current_time - g.timestamp
          let bp := blend_progress state.progress sr.progress staleness_sec
          (bp.1, bp.2, seg.1, seg.2)
      | none =>
        (state.progress, "timetable_only", state.from_station_id,
          state.to_station_id)
    else
      (state.progress, "timetable_only", state.from_station_id,
        state.to_station_id)
  let timetable_coords : Option (ℚ × ℚ) :=
    if state.is_stopped = false then
      (_interpolate_coords sq (some state.from_station_id)
        (some state.to_station_id) state.progress state.train.direction
        cache).map (fun c => (c.2, c.1))
    else
      (_get_station_coord
        (some (pyOr state.stopped_at_station_id state.from_station_id))
        cache).map (fun c => (c.2, c.1))
  let gtfs_coords := gtfs_position.map (fun g => (g.latitude, g.longitude))
  train_state_to_position_with_override sq state cache (some blended.1)
    blended.2.1 gtfs_info (some blended.2.2.1) (some blended.2.2.2)
    timetable_coords gtfs_coords

/-- `get_blended_train_positions` (lines 925-1078) on an explicit list of
states (the timetable evaluator `get_yamanote_trains_at` is an external
collaborator); `if position:` keeps exactly the successful conversions. -/
def get_blended_train_positions (sq : ℚ → ℚ)
    (searchE : ℚ → ℚ → String → String → String →
      Except Unit (Option FindResult))
    (current_time : ℚ) (cache : DataCache)
    (gtfs_data : String → Option YamanoteTrainPosition)
    (states : List TrainSectionState) : List TrainPosition :=
  states.filterMap (blendStep sq searchE current_time cache gtfs_data)

/-- `get_yamanote_train_positions` (lines 385-420) on an explicit list of
states: the per-train `try` around `train_state_to_position` is the
`Except`-valued `convert` parameter; a raised exception or a `None` conversion
increments the logged `skipped` counter (second component) and the loop
continues. -/
def yamStep (convert : TrainSectionState → Except Unit (Option TrainPosition))
    (acc : List TrainPosition × Nat) (state : TrainSectionState) :
    List TrainPosition × Nat :=
  match convert state with
  | Except.error _ => (acc.1, acc.2 + 1)
  | Except.ok none => (acc.1, acc.2 + 1)
  | Except.ok (some pos) => (acc.1 ++ [pos], acc.2)

def get_yamanote_train_positions
    (convert : TrainSectionState → Except Unit (Option TrainPosition))
    (states : List TrainSectionState) : List TrainPosition × Nat :=
  states.foldl (yamStep convert) ([], 0)

/-! ### Helper lemmas about coordinate lookup and the conversion branches -/

theorem _get_station_coord_eq_none_iff (s : String) (cache : DataCache) :
    _get_station_coord (some s) cache = none ↔
      (s = "" ∨ cache.station_positions s = none) := by
  by_cases h : s = ""
  · simp [_get_station_coord, h]
  · simp [_get_station_coord, h]

theorem _get_station_coord_eq_some (s : String) (cache : DataCache) (c : Pt)
    (h : _get_station_coord (some s) cache = some c) :
    s ≠ "" ∧ cache.station_positions s = some c := by
  by_cases hs : s = ""
  · simp [_get_station_coord, hs] at h
  · simp only [_get_station_coord, if_neg hs] at h
    exact ⟨hs, h⟩

/-- Field extraction for the moving branch of
`train_state_to_position_with_override`. -/
theorem with_override_moving_fields (sq : ℚ → ℚ) (state : TrainSectionState)
    (cache : DataCache) (override_progress : Option ℚ) (data_quality : String)
    (gtfs_info : Option (Option Int × Option Int))
    (override_from_station override_to_station : Option String)
    (timetable_coords gtfs_coords : Option (ℚ × ℚ)) (pos : TrainPosition)
    (hmov : state.is_stopped = false)
    (h : train_state_to_position_with_override sq state cache override_progress
      data_quality gtfs_info override_from_station override_to_station
      timetable_coords gtfs_coords = some pos) :
    pos.is_stopped = false ∧
    pos.progress = override_progress.getD state.progress ∧
    pos.data_quality = data_quality ∧
    pos.from_station_id = some (pyOr override_from_station state.from_station_id) ∧
    pos.to_station_id = some (pyOr override_to_station state.to_station_id) := by
  simp only [train_state_to_position_with_override, hmov, Bool.false_eq_true,
    if_false] at h
  cases hi : _interpolate_coords sq
      (some (pyOr override_from_station state.from_station_id))
      (some (pyOr override_to_station state.to_station_id))
      (override_progress.getD state.progress) state.train.direction cache with
  | none =>
    simp only [hi] at h
    exact absurd h (by simp)
  | some c =>
    simp only [hi] at h
    obtain rfl := Option.some.inj h
    exact ⟨rfl, rfl, rfl, rfl, rfl⟩

/-- Field extraction for the stopped branch of
`train_state_to_position_with_override`. -/
theorem with_override_stopped_fields (sq : ℚ → ℚ) (state : TrainSectionState)
    (cache : DataCache) (override_progress : Option ℚ) (data_quality : String)
    (gtfs_info : Option (Option Int × Option Int))
    (override_from_station override_to_station : Option String)
    (timetable_coords gtfs_coords : Option (ℚ × ℚ)) (pos : TrainPosition)
    (hstop : state.is_stopped = true)
    (h : train_state_to_position_with_override sq state cache override_progress
      data_quality gtfs_info override_from_station override_to_station
      timetable_coords gtfs_coords = some pos) :
    pos.is_stopped = true ∧
    pos.progress = 0 ∧
    pos.data_quality = data_quality ∧
    pos.station_id = some (pyOr state.stopped_at_station_id state.from_station_id) ∧
    cache.station_positions
      (pyOr state.stopped_at_station_id state.from_station_id) =
      some (pos.lon, pos.lat) := by
  simp only [train_state_to_position_with_override, hstop, if_true] at h
  cases hi : _get_station_coord
      (some (pyOr state.stopped_at_station_id state.from_station_id)) cache with
  | none =>
    simp only [hi] at h
    exact absurd h (by simp)
  | some c =>
    simp only [hi] at h
    obtain rfl := Option.some.inj h
    obtain ⟨-, hlook⟩ := _get_station_coord_eq_some _ _ _ hi
    exact ⟨rfl, rfl, rfl, rfl, hlook⟩

/-- Sample stand-in for the square root used to instantiate the abstract
parameter `sq` in witnesses; the stopped and fallback branches never evaluate
it. -/
def sqId (q : ℚ) : ℚ := q

/-- C7 (amended): for a stopped state both conversion functions pick
`stopped_at_station_id` unless it is absent or empty (Python falsiness), else
`from_station_id`; the emitted position carries that chosen station's id and
cached coordinate, and the conversion returns `none` exactly when the chosen
id is empty or has no coordinate in the cache. -/
theorem stopped_position_spec (sq : ℚ → ℚ) (state : TrainSectionState)
    (cache : DataCache) (hstop : state.is_stopped = true) :
    (train_state_to_position sq state cache = none ↔
      (pyOr state.stopped_at_station_id state.from_station_id = "" ∨
       cache.station_positions
         (pyOr state.stopped_at_station_id state.from_station_id) = none)) ∧
    (∀ pos, train_state_to_position sq state cache = some pos →
      pos.station_id =
        some (pyOr state.stopped_at_station_id state.from_station_id) ∧
      cache.station_positions
        (pyOr state.stopped_at_station_id state.from_station_id) =
        some (pos.lon, pos.lat)) ∧
    (∀ override_progress data_quality gtfs_info override_from_station
        override_to_station timetable_coords gtfs_coords,
      (train_state_to_position_with_override sq state cache override_progress
          data_quality gtfs_info override_from_station override_to_station
          timetable_coords gtfs_coords = none ↔
        (pyOr state.stopped_at_station_id state.from_station_id = "" ∨
         cache.station_positions
           (pyOr state.stopped_at_station_id state.from_station_id) = none)) ∧
      (∀ pos, train_state_to_position_with_override sq state cache
          override_progress data_quality gtfs_info override_from_station
          override_to_station timetable_coords gtfs_coords = some pos →
        pos.station_id =
          some (pyOr state.stopped_at_station_id state.from_station_id) ∧
        cache.station_positions
          (pyOr state.stopped_at_station_id state.from_station_id) =
          some (pos.lon, pos.lat))) := by
  refine ⟨?_, ?_, ?_⟩
  · simp only [train_state_to_position, hstop, if_true]
    cases hc : _get_station_coord
        (some (pyOr state.stopped_at_station_id state.from_station_id)) cache with
    | none =>
      simp only [hc]
      simpa using (_get_station_coord_eq_none_iff _ _).1 hc
    | some c =>
      simp only [hc]
      obtain ⟨hne, hlook⟩ := _get_station_coord_eq_some _ _ _ hc
      simp [hne, hlook]
  · intro pos h
    simp only [train_state_to_position, hstop, if_true] at h
    cases hc : _get_station_coord
        (some (pyOr state.stopped_at_station_id state.from_station_id)) cache with
    | none =>
      simp only [hc] at h
      exact absurd h (by simp)
    | some c =>
      simp only [hc] at h
      obtain rfl := Option.some.inj h
      obtain ⟨-, hlook⟩ := _get_station_coord_eq_some _ _ _ hc
      exact ⟨rfl, hlook⟩
  · intro op dq gi ofs ots tc gc
    constructor
    · simp only [train_state_to_position_with_override, hstop, if_true]
      cases hc : _get_station_coord
          (some (pyOr state.stopped_at_station_id state.from_station_id)) cache with
      | none =>
        simp only [hc]
        simpa using (_get_station_coord_eq_none_iff _ _).1 hc
      | some c =>
        simp only [hc]
        obtain ⟨hne, hlook⟩ := _get_station_coord_eq_some _ _ _ hc
        simp [hne, hlook]
    · intro pos h
      obtain ⟨-, -, -, hsid, hlook⟩ :=
        with_override_stopped_fields sq state cache op dq gi ofs ots tc gc pos
          hstop h
      exact ⟨hsid, hlook⟩

/-- Cache used by the C7/C8 counterexamples: the empty-string station id has a
cached coordinate `(0,0)`, station `StB` has `(1,1)`, and there is no track
geometry. -/
def fallbackCacheCex : DataCache where
  station_positions := fun s =>
    if s = "" then some (0, 0) else if s = "StB" then some (1, 1)
    else if s = "StC" then some (2, 3) else none
  station_track_indices := fun _ => none
  track_points := []

/-- A stopped state whose `stopped_at_station_id` is present but empty. -/
def stoppedEmptyIdState : TrainSectionState where
  train := { base_id := "B", number := "1", service_type := "Weekday",
             line_id := "L", direction := "OuterLoop" }
  is_stopped := true
  stopped_at_station_id := some ""
  from_station_id := "StB"
  to_station_id := "StC"
  progress := 0
  current_time_sec := 0
  segment_end_sec := none

/-- C7 counterexample: `stopped_at_station_id` is present (the empty string)
and its coordinate `(0,0)` is known to the cache, yet the conversion places
the train at the `from_station_id` coordinate `(1,1)` — the claimed fallback
condition "absent" does not match the code's falsiness test. -/
theorem stopped_position_claim_cex :
    stoppedEmptyIdState.stopped_at_station_id = some "" ∧
    fallbackCacheCex.station_positions "" = some (0, 0) ∧
    (train_state_to_position sqId stoppedEmptyIdState fallbackCacheCex).map
      (fun p => (p.lon, p.lat)) = some (1, 1) ∧
    ((1 : ℚ), (1 : ℚ)) ≠ ((0 : ℚ), (0 : ℚ)) :=
  ⟨rfl, rfl, rfl, by decide⟩

/-- A stopped state falling back to an id unknown to the cache. -/
def stoppedUnknownState : TrainSectionState where
  train := { base_id := "B", number := "1", service_type := "Weekday",
             line_id := "L", direction := "OuterLoop" }
  is_stopped := true
  stopped_at_station_id := none
  from_station_id := "NoSta"
  to_station_id := "StC"
  progress := 0
  current_time_sec := 0
  segment_end_sec := none

/-- Witness for C7: the chosen station (the fallback `from_station_id`) has no
cached coordinate, so the conversion returns `none`. -/
theorem stopped_position_spec_witness :
    train_state_to_position sqId stoppedUnknownState fallbackCacheCex = none :=
  (stopped_position_spec sqId stoppedUnknownState fallbackCacheCex rfl).1.mpr
    (Or.inr rfl)

/-- C8 (amended): when the track geometry is unavailable for the pair (no
track points, or either station missing from the track-index map),
`_interpolate_coords` falls back to straight-line interpolation between the
two station coordinates with the progress clamped to `[0,1]`, and returns
`none` exactly when either station id is empty (Python falsiness) or its
coordinate is absent from the cache. -/
theorem interpolate_fallback_spec (sq : ℚ → ℚ) (f t : String) (progress : ℚ)
    (direction : String) (cache : DataCache)
    (hgeo : cache.track_points = [] ∨ cache.station_track_indices f = none ∨
      cache.station_track_indices t = none) :
    (_interpolate_coords sq (some f) (some t) progress direction cache = none ↔
      (f = "" ∨ cache.station_positions f = none ∨
       t = "" ∨ cache.station_positions t = none)) ∧
    (∀ lon1 lat1 lon2 lat2, f ≠ "" → t ≠ "" →
      cache.station_positions f = some (lon1, lat1) →
      cache.station_positions t = some (lon2, lat2) →
      _interpolate_coords sq (some f) (some t) progress direction cache =
        some (lon1 + (lon2 - lon1) * (max 0 (min 1 progress)),
          lat1 + (lat2 - lat1) * (max 0 (min 1 progress)))) := by
  constructor
  · simp only [_interpolate_coords, if_pos hgeo]
    cases h1 : _get_station_coord (some f) cache with
    | none =>
      simp only [h1]
      have hd := (_get_station_coord_eq_none_iff f cache).1 h1
      constructor
      · intro _
        rcases hd with hd | hd
        · exact Or.inl hd
        · exact Or.inr (Or.inl hd)
      · intro _
        trivial
    | some cf =>
      obtain ⟨hfne, hflook⟩ := _get_station_coord_eq_some _ _ _ h1
      cases h2 : _get_station_coord (some t) cache with
      | none =>
        simp only [h1, h2]
        have hd := (_get_station_coord_eq_none_iff t cache).1 h2
        constructor
        · intro _
          rcases hd with hd | hd
          · exact Or.inr (Or.inr (Or.inl hd))
          · exact Or.inr (Or.inr (Or.inr hd))
        · intro _
          trivial
      | some ct =>
        obtain ⟨htne, htlook⟩ := _get_station_coord_eq_some _ _ _ h2
        simp only [h1, h2]
        simp [hfne, hflook, htne, htlook]
  · intro lon1 lat1 lon2 lat2 hfne htne hflook htlook
    have h1 : _get_station_coord (some f) cache = some (lon1, lat1) := by
      simp [_get_station_coord, hfne, hflook]
    have h2 : _get_station_coord (some t) cache = some (lon2, lat2) := by
      simp [_get_station_coord, htne, htlook]
    simp only [_interpolate_coords, if_pos hgeo, h1, h2]

/-- C8 counterexample: the fallback runs (no track geometry), both station
coordinates are known to the cache — the empty id maps to `(0,0)` and `StB`
to `(1,1)` — yet the interpolation returns `none` because the empty
`from_station_id` is falsy. -/
theorem interpolate_fallback_claim_cex :
    fallbackCacheCex.track_points = [] ∧
    fallbackCacheCex.station_positions "" = some (0, 0) ∧
    fallbackCacheCex.station_positions "StB" = some (1, 1) ∧
    _interpolate_coords sqId (some "") (some "StB") (1 / 2) "OuterLoop"
      fallbackCacheCex = none :=
  ⟨rfl, rfl, rfl, rfl⟩

/-- Witness for C8: with both stations known, the fallback produces the
clamped straight-line interpolation (the out-of-range progress 2 clamps
to 1). -/
theorem interpolate_fallback_spec_witness :
    _interpolate_coords sqId (some "StB") (some "StC") 2 "OuterLoop"
        fallbackCacheCex =
      some (1 + (2 - 1) * max 0 (min 1 (2 : ℚ)),
        1 + (3 - 1) * max 0 (min 1 (2 : ℚ))) :=
  (interpolate_fallback_spec sqId "StB" "StC" 2 "OuterLoop" fallbackCacheCex
    (Or.inl rfl)).2 1 1 2 3 (by decide) (by decide) rfl rfl

/-- C4: for a moving train with a matched, non-rejected realtime report, the
blended pipeline emits the `blend_progress` outcome of the schedule progress,
the search progress and the staleness `current_time − report timestamp`:
quality `good` with the realtime progress when staleness ≤ 30 s, the linear
interpolation `w·realtime + (1−w)·schedule` with `w = 1 − (staleness−30)/90`
and quality `stale` when 30 s < staleness ≤ 120 s, and exactly the schedule
progress with quality `timetable_only` when staleness > 120 s. -/
theorem blended_fresh_stale_spec (hav : ℚ → ℚ → ℚ → ℚ → ℚ) (sq : ℚ → ℚ)
    (current_time : ℚ) (cache : DataCache)
    (gtfs_data : String → Option YamanoteTrainPosition)
    (state : TrainSectionState) (g : YamanoteTrainPosition) (sr : FindResult)
    (pos : TrainPosition)
    (hmov : state.is_stopped = false)
    (hg : gtfs_data state.train.number = some g)
    (hsr : find_train_on_segments hav g.latitude g.longitude
      state.from_station_id state.to_station_id state.train.direction cache 500
      = some sr)
    (hpos : blendStep sq (searchOk hav cache) current_time cache gtfs_data
      state = some pos) :
    (current_time - g.timestamp ≤ 30 →
      pos.progress = sr.progress ∧ pos.data_quality = "good") ∧
    (30 < current_time - g.timestamp → current_time - g.timestamp ≤ 120 →
      pos.progress =
        (1 - (current_time - g.timestamp - 30) / 90) * sr.progress +
          ((current_time - g.timestamp - 30) / 90) * state.progress ∧
      pos.data_quality = "stale") ∧
    (120 < current_time - g.timestamp →
      pos.progress = state.progress ∧ pos.data_quality = "timetable_only") := by
  simp only [blendStep, hg, hmov, searchOk, hsr, if_true] at hpos
  obtain ⟨-, hprog, hdq, -, -⟩ :=
    with_override_moving_fields _ _ _ _ _ _ _ _ _ _ _ hmov hpos
  simp only [Option.getD_some] at hprog
  refine ⟨?_, ?_, ?_⟩
  · intro hst
    constructor
    · rw [hprog]
      simp [blend_progress, hst]
    · rw [hdq]
      simp [blend_progress, hst]
  · intro h30 h120
    have hn : ¬ (current_time - g.timestamp ≤ 30) := not_le.2 h30
    constructor
    · rw [hprog]
      simp only [blend_progress, if_neg hn, if_pos h120]
      have h90 : (120 : ℚ) - 30 = 90 := by norm_num
      rw [h90]
      ring
    · rw [hdq]
      simp [blend_progress, hn, h120]
  · intro h120
    have hn30 : ¬ (current_time - g.timestamp ≤ 30) := not_le.2 (by linarith)
    have hn120 : ¬ (current_time - g.timestamp ≤ 120) := not_le.2 h120
    constructor
    · rw [hprog]
      simp [blend_progress, hn30, hn120]
    · rw [hdq]
      simp [blend_progress, hn30, hn120]

/-- Witness track cache: stations `A` (vertex 0) and `B` (vertex 1) on a
two-vertex polyline. -/
def cacheW : DataCache where
  station_positions := fun _ => none
  station_track_indices := fun s =>
    if s = "A" then some 0 else if s = "B" then some 1 else none
  track_points := [(0, 1), (0, 4)]

/-- Witness moving state on segment `A → B` at schedule progress 1/2. -/
def stateW : TrainSectionState where
  train := { base_id := "JR-East.Yamanote.400G", number := "400G",
             service_type := "Weekday", line_id := "JR-East.Yamanote",
             direction := "X" }
  is_stopped := false
  stopped_at_station_id := none
  from_station_id := "A"
  to_station_id := "B"
  progress := 1 / 2
  current_time_sec := 0
  segment_end_sec := none

/-- Witness realtime report at the segment start, 10 seconds old at
evaluation time 110. -/
def gW : YamanoteTrainPosition where
  trip_id := "4201400G"
  train_number := "400G"
  direction := "X"
  latitude := 1
  longitude := 0
  stop_sequence := 5
  status := 2
  timestamp := 100

def gtfsW : String → Option YamanoteTrainPosition :=
  fun n => if n = "400G" then some gW else none

/-- The record the blended pipeline emits for `stateW` under `gtfsW`. -/
def posW : TrainPosition where
  train_id := mkTrainId stateW.train
  base_id := "JR-East.Yamanote.400G"
  number := "400G"
  service_type := "Weekday"
  line_id := "JR-East.Yamanote"
  direction := "X"
  is_stopped := false
  station_id := none
  from_station_id := some "A"
  to_station_id := some "B"
  progress := 0
  lon := 0
  lat := 1
  current_time_sec := 0
  is_scheduled := true
  delay_seconds := 0
  departure_time := none
  data_quality := "good"
  gtfs_stop_sequence := some 5
  gtfs_status := some 2
  timetable_lat := some (5 / 2)
  timetable_lon := some 0
  gtfs_lat := some 1
  gtfs_lon := some 0

/-- Witness for C4: a 10-second-old report matched on the nominal segment
yields quality `good` and exactly the realtime progress (0, the segment
start, while the schedule progress is 1/2). -/
theorem blended_fresh_stale_spec_witness :
    (blendStep sqId (searchOk havTaxi cacheW) 110 cacheW gtfsW stateW).map
      (fun p => (p.progress, p.data_quality)) = some ((0 : ℚ), "good") := by
  have hgas : get_adjacent_segments "A" "B" "X" = [("A", "B")] := by decide
  have hcoords : get_segment_coords "A" "B" "X" cacheW = some [(0, 1), (0, 4)] := by
    decide
  have hest : estimate_segment_progress_extended havTaxi [(0, 1), (0, 4)] 1 0 500
      = some ⟨0, 0, 0, 1⟩ := by
    norm_num [estimate_segment_progress_extended, cumulativeDistances, cumGo,
      havTaxi, projEntries, point_to_segment_distance, pickBest, pickStep,
      List.enum, List.enumFrom, List.getLastD, listMin]
  have hfind : find_train_on_segments havTaxi 1 0 "A" "B" "X" cacheW 500 =
      some ⟨("A", "B"), 0, 0, 0, 1, false⟩ := by
    norm_num [find_train_on_segments, hgas, pickFilterStep, segCandidate,
      hcoords, hest, pickStep, List.enum, List.enumFrom]
  have hb : blendStep sqId (searchOk havTaxi cacheW) 110 cacheW gtfsW stateW =
      some posW := by
    simp only [blendStep, searchOk, gtfsW, stateW, gW, if_true, hfind,
      Bool.false_eq_true, if_false]
    simp [blend_progress, train_state_to_position_with_override, pyOr,
      _interpolate_coords, _get_station_coord, cacheW, _get_path_points,
      _get_point_on_path, _euclidean_distance, sqId, gopWalk, posW, stateW,
      TrainPosition.mk.injEq]
    norm_num
  have h := blended_fresh_stale_spec havTaxi sqId 110 cacheW gtfsW stateW gW
    ⟨("A", "B"), 0, 0, 0, 1, false⟩ posW rfl rfl hfind hb
  obtain ⟨hp, hq⟩ := h.1 (by norm_num [gW])
  rw [hb, Option.map_some']
  rw [hp, hq]

theorem pyOr_some_self (s : String) : pyOr (some s) s = s := by
  by_cases h : s = "" <;> simp [pyOr, h]

/-- C5 (amended): a moving train whose report matches no candidate segment
keeps the schedule's stations and unmodified schedule progress with quality
`rejected`; a train with no report at all is emitted with quality
`timetable_only`, its progress being the schedule progress for a moving train
and 0 for a stopped one. -/
theorem blended_no_match_spec (hav : ℚ → ℚ → ℚ → ℚ → ℚ) (sq : ℚ → ℚ)
    (current_time : ℚ) (cache : DataCache)
    (gtfs_data : String → Option YamanoteTrainPosition)
    (state : TrainSectionState) (pos : TrainPosition) :
    (∀ g, state.is_stopped = false →
      gtfs_data state.train.number = some g →
      find_train_on_segments hav g.latitude g.longitude state.from_station_id
        state.to_station_id state.train.direction cache 500 = none →
      blendStep sq (searchOk hav cache) current_time cache gtfs_data state =
        some pos →
      pos.data_quality = "rejected" ∧ pos.progress = state.progress ∧
      pos.from_station_id = some state.from_station_id ∧
      pos.to_station_id = some state.to_station_id) ∧
    (gtfs_data state.train.number = none →
      blendStep sq (searchOk hav cache) current_time cache gtfs_data state =
        some pos →
      pos.data_quality = "timetable_only" ∧
      (state.is_stopped = false → pos.progress = state.progress) ∧
      (state.is_stopped = true → pos.progress = 0)) := by
  constructor
  · intro g hmov hg hnone hpos
    simp only [blendStep, hg, hmov, searchOk, hnone, if_true] at hpos
    obtain ⟨-, hprog, hdq, hfrom, hto⟩ :=
      with_override_moving_fields _ _ _ _ _ _ _ _ _ _ _ hmov hpos
    simp only [Option.getD_some] at hprog
    rw [pyOr_some_self] at hfrom hto
    exact ⟨hdq, hprog, hfrom, hto⟩
  · intro hg hpos
    cases hstop : state.is_stopped with
    | false =>
      simp only [blendStep, hg, hstop, if_true] at hpos
      obtain ⟨-, hprog, hdq, -, -⟩ :=
        with_override_moving_fields _ _ _ _ _ _ _ _ _ _ _ hstop hpos
      simp only [Option.getD_some] at hprog
      exact ⟨hdq, fun _ => hprog, fun hc => absurd hc (by simp)⟩
    | true =>
      simp only [blendStep, hg, hstop, Bool.true_eq_false, if_false] at hpos
      obtain ⟨-, hprog, hdq, -, -⟩ :=
        with_override_stopped_fields _ _ _ _ _ _ _ _ _ _ _ hstop hpos
      exact ⟨hdq, fun hc => absurd hc (by simp), fun _ => hprog⟩

/-- A stopped state with nonzero schedule progress and a cached coordinate. -/
def stoppedHalfState : TrainSectionState where
  train := { base_id := "B", number := "1", service_type := "Weekday",
             line_id := "L", direction := "OuterLoop" }
  is_stopped := true
  stopped_at_station_id := none
  from_station_id := "StB"
  to_station_id := "StC"
  progress := 1 / 2
  current_time_sec := 0
  segment_end_sec := none

/-- C5 counterexample: a stopped train with no realtime report is emitted
with quality `timetable_only` but progress 0, not its schedule progress 1/2 —
the claim's "with the schedule progress" fails for stopped trains. -/
theorem blended_no_match_claim_cex :
    stoppedHalfState.progress = 1 / 2 ∧
    (blendStep sqId (searchOk havTaxi fallbackCacheCex) 0 fallbackCacheCex
        (fun _ => none) stoppedHalfState).map
      (fun p => (p.progress, p.data_quality)) =
      some ((0 : ℚ), "timetable_only") ∧
    (0 : ℚ) ≠ 1 / 2 :=
  ⟨rfl, rfl, by norm_num⟩

/-- Witness for C5: the same no-report stopped train, reached through the
amended specification. -/
theorem blended_no_match_spec_witness :
    (blendStep sqId (searchOk havTaxi fallbackCacheCex) 0 fallbackCacheCex
        (fun _ => none) stoppedHalfState).map (fun p => p.data_quality) =
      some "timetable_only" := by
  cases hb : blendStep sqId (searchOk havTaxi fallbackCacheCex) 0
      fallbackCacheCex (fun _ => none) stoppedHalfState with
  | none => exact absurd hb (by decide)
  | some p =>
    obtain ⟨hdq, -, -⟩ := (blended_no_match_spec havTaxi sqId 0 fallbackCacheCex
      (fun _ => none) stoppedHalfState p).2 rfl hb
    rw [Option.map_some', hdq]

/-! ### Progress bounds -/

theorem estimate_some_progress_bounds (hav : ℚ → ℚ → ℚ → ℚ → ℚ)
    (coords : List Pt) (target_lat target_lon max_distance_m : ℚ)
    (res : ExtResult)
    (h : estimate_segment_progress_extended hav coords target_lat target_lon
      max_distance_m = some res) : 0 ≤ res.progress ∧ res.progress ≤ 1 := by
  simp only [estimate_segment_progress_extended] at h
  split at h
  · exact absurd h (by simp)
  split at h
  · exact absurd h (by simp)
  split at h
  · exact absurd h (by simp)
  split at h
  · exact absurd h (by simp)
  obtain rfl := Option.some.inj h
  constructor
  · exact le_max_left _ _
  · exact max_le (by norm_num) (min_le_left _ _)

theorem segCandidate_progress_bounds (hav : ℚ → ℚ → ℚ → ℚ → ℚ)
    (gtfs_lat gtfs_lon : ℚ) (direction : String) (cache : DataCache)
    (max_distance_m : ℚ) (p : Nat × String × String) (r : FindResult)
    (h : segCandidate hav gtfs_lat gtfs_lon direction cache max_distance_m p =
      some r) : 0 ≤ r.progress ∧ r.progress ≤ 1 := by
  cases hg : get_segment_coords p.2.1 p.2.2 direction cache with
  | none => simp [segCandidate, hg] at h
  | some coords =>
    simp only [segCandidate, hg] at h
    split at h
    · exact absurd h (by simp)
    · obtain ⟨res, hres, hr⟩ := Option.map_eq_some'.1 h
      have := estimate_some_progress_bounds hav coords gtfs_lat gtfs_lon
        max_distance_m res hres
      rw [← hr]
      exact this

theorem find_some_progress_bounds (hav : ℚ → ℚ → ℚ → ℚ → ℚ)
    (gtfs_lat gtfs_lon : ℚ) (from_station_id to_station_id direction : String)
    (cache : DataCache) (max_distance_m : ℚ) (w : FindResult)
    (h : find_train_on_segments hav gtfs_lat gtfs_lon from_station_id
      to_station_id direction cache max_distance_m = some w) :
    0 ≤ w.progress ∧ w.progress ≤ 1 := by
  rw [find_train_on_segments_eq_pickBest] at h
  have hmem := pickBest_mem _ _ _ h
  obtain ⟨p, -, hp⟩ := List.mem_filterMap.1 hmem
  exact segCandidate_progress_bounds hav gtfs_lat gtfs_lon direction cache
    max_distance_m p w hp

theorem blend_progress_bounds (sp rp st : ℚ) (hsp0 : 0 ≤ sp) (hsp1 : sp ≤ 1)
    (hrp0 : 0 ≤ rp) (hrp1 : rp ≤ 1) :
    0 ≤ (blend_progress sp rp st).1 ∧ (blend_progress sp rp st).1 ≤ 1 := by
  rw [blend_progress]
  split
  · exact ⟨hrp0, hrp1⟩
  split
  · rename_i h30 h120
    have h30' : 30 < st := lt_of_not_le h30
    have hw0 : 0 ≤ 1 - (st - 30) / (120 - 30) := by
      rw [sub_nonneg]
      rw [div_le_one (by norm_num)]
      linarith
    have hw1 : 1 - (st - 30) / (120 - 30) ≤ 1 := by
      have : 0 ≤ (st - 30) / (120 - 30) :=
        div_nonneg (by linarith) (by norm_num)
      linarith
    constructor
    · have h1 : 0 ≤ (1 - (st - 30) / (120 - 30)) * rp := mul_nonneg hw0 hrp0
      have h2 : 0 ≤ (1 - (1 - (st - 30) / (120 - 30))) * sp :=
        mul_nonneg (by linarith) hsp0
      simpa using add_nonneg h1 h2
    · have h1 : (1 - (st - 30) / (120 - 30)) * rp ≤
          (1 - (st - 30) / (120 - 30)) * 1 := by
        exact mul_le_mul_of_nonneg_left hrp1 hw0
      have h2 : (1 - (1 - (st - 30) / (120 - 30))) * sp ≤
          (1 - (1 - (st - 30) / (120 - 30))) * 1 := by
        exact mul_le_mul_of_nonneg_left hsp1 (by linarith)
      have := add_le_add h1 h2
      simpa using this
  · exact ⟨hsp0, hsp1⟩

/-- C6 (amended): provided every schedule progress lies in `[0,1]`, every
record emitted by the blended pipeline has its progress in `[0,1]`, whatever
the projection results and blend arithmetic were (the projection progress is
clamped by the estimator, and the blend of two unit-interval values with a
unit-interval weight stays in the interval; a stopped train reports 0). -/
theorem blended_progress_in_unit (hav : ℚ → ℚ → ℚ → ℚ → ℚ) (sq : ℚ → ℚ)
    (current_time : ℚ) (cache : DataCache)
    (gtfs_data : String → Option YamanoteTrainPosition)
    (states : List TrainSectionState)
    (hstates : ∀ s ∈ states, 0 ≤ s.progress ∧ s.progress ≤ 1) :
    ∀ pos ∈ get_blended_train_positions sq (searchOk hav cache) current_time
      cache gtfs_data states, 0 ≤ pos.progress ∧ pos.progress ≤ 1 := by
  intro pos hpos
  obtain ⟨s, hs, hstep⟩ := List.mem_filterMap.1 hpos
  obtain ⟨hs0, hs1⟩ := hstates s hs
  cases hstop : s.is_stopped with
  | true =>
    simp only [blendStep, hstop, Bool.true_eq_false, if_false] at hstep
    obtain ⟨-, hprog, -, -, -⟩ :=
      with_override_stopped_fields _ _ _ _ _ _ _ _ _ _ _ hstop hstep
    rw [hprog]
    norm_num
  | false =>
    cases hgd : gtfs_data s.train.number with
    | none =>
      simp only [blendStep, hgd, hstop, if_true] at hstep
      obtain ⟨-, hprog, -, -, -⟩ :=
        with_override_moving_fields _ _ _ _ _ _ _ _ _ _ _ hstop hstep
      simp only [Option.getD_some] at hprog
      rw [hprog]
      exact ⟨hs0, hs1⟩
    | some g =>
      cases hf : find_train_on_segments hav g.latitude g.longitude
          s.from_station_id s.to_station_id s.train.direction cache 500 with
      | none =>
        simp only [blendStep, hgd, hstop, searchOk, hf, if_true] at hstep
        obtain ⟨-, hprog, -, -, -⟩ :=
          with_override_moving_fields _ _ _ _ _ _ _ _ _ _ _ hstop hstep
        simp only [Option.getD_some] at hprog
        rw [hprog]
        exact ⟨hs0, hs1⟩
      | some sr =>
        simp only [blendStep, hgd, hstop, searchOk, hf, if_true] at hstep
        obtain ⟨-, hprog, -, -, -⟩ :=
          with_override_moving_fields _ _ _ _ _ _ _ _ _ _ _ hstop hstep
        simp only [Option.getD_some] at hprog
        obtain ⟨hr0, hr1⟩ := find_some_progress_bounds hav g.latitude
          g.longitude s.from_station_id s.to_station_id s.train.direction
          cache 500 sr hf
        rw [hprog]
        exact blend_progress_bounds s.progress sr.progress
          (current_time - g.timestamp) hs0 hs1 hr0 hr1

/-- A moving state with schedule progress outside the unit interval. -/
def movingOutOfRangeState : TrainSectionState where
  train := { base_id := "B", number := "1", service_type := "Weekday",
             line_id := "L", direction := "OuterLoop" }
  is_stopped := false
  stopped_at_station_id := none
  from_station_id := "StB"
  to_station_id := "StC"
  progress := 3 / 2
  current_time_sec := 0
  segment_end_sec := none

/-- C6 counterexample: a moving train with schedule progress 3/2 and no
report is emitted with progress 3/2, outside `[0,1]` — the claim's "whatever
the schedule progress value was" fails because the emitted progress field is
not clamped. -/
theorem blended_progress_in_unit_claim_cex :
    (blendStep sqId (searchOk havTaxi fallbackCacheCex) 0 fallbackCacheCex
        (fun _ => none) movingOutOfRangeState).map (fun p => p.progress) =
      some (3 / 2 : ℚ) ∧
    ¬ ((3 / 2 : ℚ) ≤ 1) :=
  ⟨rfl, by norm_num⟩

/-- Witness for C6: every record of a concrete pipeline run lies in the unit
interval. -/
theorem blended_progress_in_unit_witness :
    (get_blended_train_positions sqId (searchOk havTaxi fallbackCacheCex) 0
        fallbackCacheCex (fun _ => none) [stoppedHalfState]).all
      (fun p => decide (0 ≤ p.progress ∧ p.progress ≤ 1)) = true := by
  have h := blended_progress_in_unit havTaxi sqId 0 fallbackCacheCex
    (fun _ => none) [stoppedHalfState] ?hs
  · rw [List.all_eq_true]
    intro p hp
    exact decide_eq_true (h p hp)
  · intro s hs
    rw [List.mem_singleton.1 hs]
    constructor <;> norm_num [stoppedHalfState]

/-- The skipping fold of `get_yamanote_train_positions` from an arbitrary
accumulator: results append, skip counts add. -/
theorem yam_foldl_acc (convert : TrainSectionState →
    Except Unit (Option TrainPosition)) :
    ∀ (l : List TrainSectionState) (r : List TrainPosition) (k : Nat),
      l.foldl (yamStep convert) (r, k) =
        (r ++ (get_yamanote_train_positions convert l).1,
         k + (get_yamanote_train_positions convert l).2) := by
  intro l
  induction l with
  | nil =>
    intro r k
    simp [get_yamanote_train_positions]
  | cons s l ih =>
    intro r k
    rw [List.foldl_cons]
    have hcons : get_yamanote_train_positions convert (s :: l) =
        List.foldl (yamStep convert) (yamStep convert ([], 0) s) l := by
      rw [get_yamanote_train_positions, List.foldl_cons]
    cases hc : convert s with
    | error e =>
      have h1 : yamStep convert (r, k) s = (r, k + 1) := by simp [yamStep, hc]
      have h2 : yamStep convert ([], 0) s = ([], 1) := by simp [yamStep, hc]
      rw [h1, ih, hcons, h2, ih]
      simp
      omega
    | ok o =>
      cases o with
      | none =>
        have h1 : yamStep convert (r, k) s = (r, k + 1) := by simp [yamStep, hc]
        have h2 : yamStep convert ([], 0) s = ([], 1) := by simp [yamStep, hc]
        rw [h1, ih, hcons, h2, ih]
        simp
        omega
      | some p =>
        have h1 : yamStep convert (r, k) s = (r ++ [p], k) := by
          simp [yamStep, hc]
        have h2 : yamStep convert ([], 0) s = ([p], 0) := by simp [yamStep, hc]
        rw [h1, ih, hcons, h2, ih]
        simp

/-- C9: a fault while processing one train is confined to that train.  In
`get_yamanote_train_positions` a conversion that raises is counted as skipped
and the fold continues over both sides unchanged; in the blended pipeline a
raising neighbor search yields a position tagged `error` (with the schedule
progress), the neighbors of the batch being processed exactly as without it. -/
theorem per_train_fault_isolation :
    (∀ (convert : TrainSectionState → Except Unit (Option TrainPosition))
        (s1 s2 : List TrainSectionState) (bad : TrainSectionState) (e : Unit),
      convert bad = Except.error e →
      get_yamanote_train_positions convert (s1 ++ bad :: s2) =
        ((get_yamanote_train_positions convert s1).1 ++
          (get_yamanote_train_positions convert s2).1,
         (get_yamanote_train_positions convert s1).2 + 1 +
          (get_yamanote_train_positions convert s2).2)) ∧
    (∀ (sq : ℚ → ℚ)
        (searchE : ℚ → ℚ → String → String → String →
          Except Unit (Option FindResult))
        (current_time : ℚ) (cache : DataCache)
        (gtfs_data : String → Option YamanoteTrainPosition)
        (s1 s2 : List TrainSectionState) (bad : TrainSectionState)
        (g : YamanoteTrainPosition) (e : Unit),
      bad.is_stopped = false →
      gtfs_data bad.train.number = some g →
      searchE g.latitude g.longitude bad.from_station_id bad.to_station_id
        bad.train.direction = Except.error e →
      get_blended_train_positions sq searchE current_time cache gtfs_data
          (s1 ++ bad :: s2) =
        get_blended_train_positions sq searchE current_time cache gtfs_data s1
          ++ (blendStep sq searchE current_time cache gtfs_data bad).toList
          ++ get_blended_train_positions sq searchE current_time cache
              gtfs_data s2 ∧
      (∀ pos, blendStep sq searchE current_time cache gtfs_data bad =
          some pos →
        pos.data_quality = "error" ∧ pos.progress = bad.progress)) := by
  constructor
  · intro convert s1 s2 bad e hbad
    have hstep : yamStep convert
        ((get_yamanote_train_positions convert s1).1,
         (get_yamanote_train_positions convert s1).2) bad =
        ((get_yamanote_train_positions convert s1).1,
         (get_yamanote_train_positions convert s1).2 + 1) := by
      simp [yamStep, hbad]
    rw [get_yamanote_train_positions, List.foldl_append, List.foldl_cons]
    rw [show List.foldl (yamStep convert) ([], 0) s1 =
      get_yamanote_train_positions convert s1 from rfl]
    rw [show (get_yamanote_train_positions convert s1 : _) =
      ((get_yamanote_train_positions convert s1).1,
       (get_yamanote_train_positions convert s1).2) from rfl, hstep]
    rw [yam_foldl_acc]
  · intro sq searchE current_time cache gtfs_data s1 s2 bad g e hmov hg hsearch
    constructor
    · rw [get_blended_train_positions, List.filterMap_append,
        List.filterMap_cons]
      cases hb : blendStep sq searchE current_time cache gtfs_data bad with
      | none => simp [get_blended_train_positions]
      | some p => simp [get_blended_train_positions]
    · intro pos hpos
      simp only [blendStep, hmov, hg, hsearch, if_true] at hpos
      obtain ⟨-, hprog, hdq, -, -⟩ :=
        with_override_moving_fields _ _ _ _ _ _ _ _ _ _ _ hmov hpos
      simp only [Option.getD_some] at hprog
      exact ⟨hdq, hprog⟩

/-- Faulting converter for the C9 witness: it raises exactly on train number
`bad`. -/
def convX : TrainSectionState → Except Unit (Option TrainPosition) :=
  fun s => if s.train.number = "bad" then Except.error () else Except.ok none

/-- A state whose conversion raises under `convX`. -/
def badStateW : TrainSectionState where
  train := { base_id := "B", number := "bad", service_type := "Weekday",
             line_id := "L", direction := "OuterLoop" }
  is_stopped := true
  stopped_at_station_id := none
  from_station_id := "StB"
  to_station_id := "StC"
  progress := 0
  current_time_sec := 0
  segment_end_sec := none

/-- Witness for C9: one raising train in the middle of a batch is skipped and
counted while both neighbors are processed. -/
theorem per_train_fault_isolation_witness :
    get_yamanote_train_positions convX
        [stoppedUnknownState, badStateW, stoppedHalfState] =
      ((get_yamanote_train_positions convX [stoppedUnknownState]).1 ++
        (get_yamanote_train_positions convX [stoppedHalfState]).1,
       (get_yamanote_train_positions convX [stoppedUnknownState]).2 + 1 +
        (get_yamanote_train_positions convX [stoppedHalfState]).2) :=
  per_train_fault_isolation.1 convX [stoppedUnknownState] [stoppedHalfState]
    badStateW () rfl
